import Mathlib

/-!
Shallow embedding of the Invoice-AI backend (api.py, chatassistant/tools.py,
chatassistant/agent.py) and verification of its specification claims.

Blob storage buckets and the Firestore "invoices" collection are modelled as
association lists from names to values; endpoint handlers become total
functions from an explicit world state to a pair of the final state and an
`Except`-style outcome (an HTTP error with status code and detail string, or
the endpoint's response value).  Timestamps are natural numbers, monetary
amounts are integers, file contents are opaque tokens.  The one failure
point the code itself handles (the Firestore write inside upload_invoice's
inner try/except) is driven by an explicit failure oracle.
-/

namespace InvoiceAI

/-- A Firestore document of the "invoices" collection: every field this
backend reads or writes.  All fields are optional because Firestore
documents are schemaless and `dict.get` returns `None` for absent keys. -/
structure InvoiceDoc where
  filename : Option String := none
  status : Option String := none
  created_at : Option Nat := none
  last_modified : Option Nat := none
  gcs_source_uri : Option String := none
  vendor_name : Option String := none
  vendor_name_lowercase : Option String := none
  invoice_number_lowercase : Option String := none
  total_amount_num : Option Int := none
  currency : Option String := none
  due_date_dt : Option Nat := none
  deriving DecidableEq

/-- `str.lower()` (ASCII, as used on vendor names, invoice numbers and
filename keywords). -/
def lowerS (s : String) : String := ⟨s.data.map Char.toLower⟩

/-- `str.upper()` (ASCII, as used on status arguments). -/
def upperS (s : String) : String := ⟨s.data.map Char.toUpper⟩

/-- Whether `n` starts the character list `h` (helper for substring search). -/
def isPrefixB : List Char → List Char → Bool
  | [], _ => true
  | _ :: _, [] => false
  | a :: as, b :: bs => a == b && isPrefixB as bs

/-- Whether `n` occurs inside `h`, i.e. Python `n in h` on strings. -/
def isInfixB (n : List Char) : List Char → Bool
  | [] => n.isEmpty
  | b :: bs => isPrefixB n (b :: bs) || isInfixB n bs

/-- Python `needle in hay` for strings. -/
def containsS (hay needle : String) : Bool := isInfixB needle.data hay.data

/-- Index of the last occurrence of `c`, if any. -/
def lastIdxOf (c : Char) : List Char → Option Nat
  | [] => none
  | a :: as =>
    match lastIdxOf c as with
    | some i => some (i + 1)
    | none => if a = c then some 0 else none

/-- `os.path.splitext(s)[0]` for a path-separator-free filename: cut at the
last dot unless every character before it is itself a dot. -/
def splitextStem (s : String) : String :=
  match lastIdxOf '.' s.data with
  | none => s
  | some i => if (s.data.take i).all (fun c => c = '.') then s else ⟨s.data.take i⟩

/-- Association-list lookup by key (document id / blob name). -/
def lookupA {α : Type} : List (String × α) → String → Option α
  | [], _ => none
  | (k2, v) :: rest, k => if k2 = k then some v else lookupA rest k

/-- Remove every binding of key `k`. -/
def eraseA {α : Type} (l : List (String × α)) (k : String) : List (String × α) :=
  l.filter (fun p => p.1 ≠ k)

/-- Overwrite the binding of key `k` (Firestore `set` / blob overwrite). -/
def setA {α : Type} (l : List (String × α)) (k : String) (v : α) : List (String × α) :=
  (k, v) :: eraseA l k

/-- `blob.exists()` / `doc_ref.get().exists`. -/
def existsA {α : Type} (l : List (String × α)) (k : String) : Bool :=
  (lookupA l k).isSome

/-- The externally visible state the handlers touch: the two GCS buckets
(blob name to opaque content token) and the Firestore "invoices"
collection (document id to document). -/
structure WorldState where
  sourceBucket : List (String × Nat)
  targetBucket : List (String × Nat)
  invoices : List (String × InvoiceDoc)
  deriving DecidableEq

def emptyWorld : WorldState := ⟨[], [], []⟩

/-- A FastAPI `HTTPException`: status code and detail string. -/
structure HttpError where
  status : Nat
  detail : String
  deriving DecidableEq

/-- Response model of POST /upload-invoice. -/
structure UploadResponse where
  status : String
  gcs_uri : String
  filename : String
  deriving DecidableEq

/-- Response of DELETE /delete-invoice/{filename}. -/
structure DeleteResponse where
  status : String
  filename : String
  cleaned_source_gcs : Bool
  cleaned_target_gcs : Bool
  cleaned_firestore : Bool
  deriving DecidableEq

/-- Failure oracle for upload_invoice: whether the GCS upload call and the
Firestore write raise, and with which messages. -/
structure FailureOracle where
  uploadFails : Bool := false
  uploadErrMsg : String := ""
  dbWriteFails : Bool := false
  dbErrMsg : String := ""
  deriving DecidableEq

/-- The gs:// URI built at api.py line 143. -/
def gcsUriOf (sourceBucketName fname : String) : String :=
  "gs://" ++ sourceBucketName ++ "/" ++ fname

/-- The Firestore status record written by upload_invoice (api.py lines
148-154). -/
def uploadedDoc (sourceBucketName fname : String) (now : Nat) : InvoiceDoc :=
  { filename := some fname
    status := some "UPLOADED"
    created_at := some now
    last_modified := some now
    gcs_source_uri := some (gcsUriOf sourceBucketName fname) }

/-- POST /upload-invoice (api.py `upload_invoice`): reject an existing blob
name, upload the blob, write the Firestore status document, and on a
Firestore failure delete the just-uploaded blob before re-raising; the
outer except maps every failure to HTTP 400 with the message as detail. -/
def uploadInvoice (sourceBucketName : String) (st : WorldState) (fname : String)
    (content : Nat) (now : Nat) (oracle : FailureOracle) :
    WorldState × Except HttpError UploadResponse :=
  if existsA st.sourceBucket fname then
    (st, .error ⟨400, "File " ++ fname ++ " already exists."⟩)
  else if oracle.uploadFails then
    (st, .error ⟨400, oracle.uploadErrMsg⟩)
  else
    let st1 : WorldState := { st with sourceBucket := setA st.sourceBucket fname content }
    let uri := gcsUriOf sourceBucketName fname
    if oracle.dbWriteFails then
      let st2 : WorldState := { st1 with sourceBucket := eraseA st1.sourceBucket fname }
      (st2, .error ⟨400, oracle.dbErrMsg⟩)
    else
      ({ st1 with invoices := setA st1.invoices fname (uploadedDoc sourceBucketName fname now) },
       .ok ⟨"success", uri, fname⟩)

/-- Detail string produced when delete_invoice finds nothing: the inner
`HTTPException(404, ...)` is caught by the handler's blanket
`except Exception` and re-raised as a 500 whose detail embeds the 404. -/
def deleteNotFoundDetail (fname : String) : String :=
  "An unexpected error occurred: 404: File " ++ fname ++ " not found in GCS or Firestore."

/-- The three conditional deletions of delete_invoice (api.py lines
353-373): final state plus the three deleted-flags, in execution order. -/
def deleteScan (st : WorldState) (fname : String) : WorldState × Bool × Bool × Bool :=
  let delS := existsA st.sourceBucket fname
  let st1 : WorldState :=
    if delS then { st with sourceBucket := eraseA st.sourceBucket fname } else st
  let jname := splitextStem fname ++ ".json"
  let delT := existsA st1.targetBucket jname
  let st2 : WorldState :=
    if delT then { st1 with targetBucket := eraseA st1.targetBucket jname } else st1
  let delF := existsA st2.invoices fname
  let st3 : WorldState :=
    if delF then { st2 with invoices := eraseA st2.invoices fname } else st2
  (st3, delS, delT, delF)

/-- DELETE /delete-invoice/{filename} (api.py `delete_invoice`): delete the
source blob, the `<stem>.json` target blob and the Firestore document when
each exists; when none existed the code raises HTTPException(404) inside
the try block, which its own `except Exception` converts to a 500. -/
def deleteInvoice (st : WorldState) (fname : String) :
    WorldState × Except HttpError DeleteResponse :=
  let r := deleteScan st fname
  if !r.2.1 && !r.2.2.1 && !r.2.2.2 then
    (r.1, .error ⟨500, deleteNotFoundDetail fname⟩)
  else
    (r.1, .ok ⟨"deleted", fname, r.2.1, r.2.2.1, r.2.2.2⟩)

/-- Record returned by GET /invoices/ (Pydantic model `InvoiceStatus`). -/
structure InvoiceStatusRec where
  filename : String
  status : String
  last_modified : Nat
  deriving DecidableEq

/-- Pydantic validation of one streamed document: all three fields must be
present (passing `None` into `InvoiceStatus` raises). -/
def mkRec (p : String × InvoiceDoc) : Option InvoiceStatusRec :=
  match p.2.filename, p.2.status, p.2.last_modified with
  | some f, some s, some m => some ⟨f, s, m⟩
  | _, _, _ => none

/-- Option-valued traversal: `some` exactly when `f` succeeds on every
element, mirroring a loop that raises on the first bad element. -/
def mapOpt {α β : Type} (f : α → Option β) : List α → Option (List β)
  | [] => some []
  | a :: as =>
    match f a, mapOpt f as with
    | some b, some bs => some (b :: bs)
    | _, _ => none

/-- Descending order on `last_modified` used by `invoices.sort(key=...,
reverse=True)`. -/
def recGe (a b : InvoiceStatusRec) : Prop := b.last_modified ≤ a.last_modified

instance : DecidableRel recGe := fun _ _ => Nat.decLe _ _

instance : IsTotal InvoiceStatusRec recGe := ⟨fun a b => Nat.le_total b.last_modified a.last_modified⟩

instance : IsTrans InvoiceStatusRec recGe := ⟨fun _ _ _ hab hbc => Nat.le_trans hbc hab⟩

/-- GET /invoices/ (api.py `list_invoices_with_status`): build one record per
streamed document and sort by `last_modified` descending; any exception
(including a Pydantic validation failure on a malformed document) becomes
HTTP 500. -/
def listInvoicesWithStatus (docs : List (String × InvoiceDoc)) :
    Except HttpError (List InvoiceStatusRec) :=
  match mapOpt mkRec docs with
  | none => .error ⟨500, "Failed to list invoices from database"⟩
  | some recs => .ok (List.insertionSort recGe recs)

/-- One part of an ADK event content: its optional text. -/
structure EventPart where
  text : Option String
  deriving DecidableEq

/-- One ADK conversation event as the history endpoints consume it:
`event.content.role`, `event.content.parts`, `event.is_final_response()`. -/
structure Event where
  role : String
  parts : List EventPart
  isFinal : Bool
  deriving DecidableEq

/-- One ADK session: id, its events, and `session.last_update_time`. -/
structure Session where
  id : String
  events : List Event
  last_update_time : Nat
  deriving DecidableEq

/-- Response model `SessionSummary` of GET /chat/history/{user_id}. -/
structure SessionSummary where
  id : String
  last_message : String
  last_updated : Nat
  deriving DecidableEq

/-- Response model `SessionHistory` of GET /chat/history/session/{id}. -/
structure SessionHistory where
  id : String
  messages : List String
  deriving DecidableEq

/-- Python negative indexing `l[-k]` (`k` at least 1): raises, i.e. `none`,
when the list is shorter than `k`. -/
def pyNegIdx {α : Type} (l : List α) (k : Nat) : Option α :=
  if k ≤ l.length then l.get? (l.length - k) else none

/-- The per-session body of `get_session_history_for_user`: read
`events[-1]` and `events[-2]`, pick the last event's first part when its
role is "model" and otherwise the second-to-last event's first part, and
require the chosen text to be present (a `None` text fails Pydantic
validation of `SessionSummary`).  `none` models the per-request exception
that the handler turns into HTTP 500. -/
def mkSummary (sess : Session) : Option SessionSummary :=
  (pyNegIdx sess.events 1).bind fun lastE =>
    (pyNegIdx sess.events 2).bind fun lastBut =>
      (((if lastE.role = "model" then lastE else lastBut).parts.get? 0).bind fun p =>
        p.text).bind fun txt =>
          some ⟨sess.id, txt, sess.last_update_time⟩

/-- The claim's wording of the last-message rule: the text of the first part
of the session's last event when that event's role is "model", otherwise
the text of the first part of the second-to-last event. -/
def specLastMessage (sess : Session) : Option String :=
  sess.events.getLast?.bind fun lastE =>
    if lastE.role = "model" then
      lastE.parts.head?.bind fun p => p.text
    else
      (sess.events.get? (sess.events.length - 2)).bind fun lb =>
        lb.parts.head?.bind fun p => p.text

/-- Descending order on `last_updated` used by `summaries.sort(key=...,
reverse=True)`. -/
def summaryGe (a b : SessionSummary) : Prop := b.last_updated ≤ a.last_updated

instance : DecidableRel summaryGe := fun _ _ => Nat.decLe _ _

instance : IsTotal SessionSummary summaryGe :=
  ⟨fun a b => Nat.le_total b.last_updated a.last_updated⟩

instance : IsTrans SessionSummary summaryGe :=
  ⟨fun _ _ _ hab hbc => Nat.le_trans hbc hab⟩

/-- GET /chat/history/{user_id} (api.py `get_session_history_for_user`):
503 when the session service is down, otherwise one summary per session
sorted by `last_updated` descending; any exception while building a
summary becomes HTTP 500. -/
def getSessionHistoryForUser (svc : Bool) (sessions : List Session) :
    Except HttpError (List SessionSummary) :=
  if svc = false then .error ⟨503, "Chat service not available."⟩
  else
    match mapOpt mkSummary sessions with
    | none => .error ⟨500, "Failed to list sessions"⟩
    | some summaries => .ok (List.insertionSort summaryGe summaries)

/-- Message extraction loop of `get_messages_for_session`: a user event
contributes `parts[0].text` when not `None`, a final-response event
likewise; indexing `parts[0]` on an event with no parts raises. -/
def collectMessages : List Event → Option (List String)
  | [] => some []
  | e :: es =>
    let fromUser : Option (List String) :=
      if e.role = "user" then
        match e.parts.get? 0 with
        | none => none
        | some p => some (match p.text with | some t => [t] | none => [])
      else some []
    let fromFinal : Option (List String) :=
      if e.isFinal then
        match e.parts.get? 0 with
        | none => none
        | some p => some (match p.text with | some t => [t] | none => [])
      else some []
    match fromUser, fromFinal, collectMessages es with
    | some a, some b, some rest => some (a ++ b ++ rest)
    | _, _, _ => none

/-- Find the session with a given id. -/
def findSession (sessions : List Session) (sid : String) : Option Session :=
  sessions.find? (fun s => s.id = sid)

/-- GET /chat/history/session/{session_id} (api.py
`get_messages_for_session`): 503 when the service is down; a missing
session raises HTTPException(404) inside the try block, which the blanket
except converts to 500; message collection failures also become 500. -/
def getMessagesForSession (svc : Bool) (sessions : List Session) (sid : String) :
    Except HttpError SessionHistory :=
  if svc = false then .error ⟨503, "Chat service not available."⟩
  else
    match findSession sessions sid with
    | none => .error ⟨500, "Failed to get session messages: 404: Session not found."⟩
    | some sess =>
      match collectMessages sess.events with
      | none => .error ⟨500, "Failed to get session messages"⟩
      | some msgs => .ok ⟨sess.id, msgs⟩

/-- GET / (api.py `read_root`): a constant health response, no failure
path. -/
def readRoot : Except HttpError (String × String) := .ok ("status", "API is running")

/-- Record returned by GET /invoices/statuses/ (Pydantic model
`InvoiceStatusUpdate`). -/
structure InvoiceStatusUpdateRec where
  filename : String
  status : String
  deriving DecidableEq

/-- Pydantic validation of one streamed `InvoiceStatusUpdate`: filename and
status must both be present (passing `None` raises). -/
def mkStatusRec (p : String × InvoiceDoc) : Option InvoiceStatusUpdateRec :=
  match p.2.filename, p.2.status with
  | some f, some s => some ⟨f, s⟩
  | _, _ => none

/-- GET /invoices/statuses/ (api.py `get_all_invoice_statuses`): one
lightweight record per streamed document, in stream order; any exception
(including a Pydantic validation failure) becomes HTTP 500. -/
def getAllInvoiceStatuses (docs : List (String × InvoiceDoc)) :
    Except HttpError (List InvoiceStatusUpdateRec) :=
  match mapOpt mkStatusRec docs with
  | none => .error ⟨500, "Failed to fetch statuses"⟩
  | some recs => .ok recs

/-- Python `s.endswith(suffix)`. -/
def endsWithS (s suffix : String) : Bool :=
  isPrefixB suffix.data.reverse s.data.reverse

/-- Response model `ProcessedInvoiceContent`: filename plus the decoded
JSON dictionary (modelled as string key-value pairs). -/
structure ProcessedInvoiceRec where
  filename : String
  content : List (String × String)
  deriving DecidableEq

/-- GET /processed-invoices/ (api.py `list_processed_invoices_content`):
keep each `.json` blob of the target bucket whose download and JSON
decode succeed; the per-blob except clauses skip failing blobs, a missing
bucket is HTTP 404.  `parse` models `download_as_string` plus
`json.loads` on a blob's content token, `none` meaning either raised. -/
def listProcessedInvoicesContent (bucketFound : Bool)
    (blobs : List (String × Nat))
    (parse : Nat → Option (List (String × String))) :
    Except HttpError (List ProcessedInvoiceRec) :=
  if bucketFound = false then
    .error ⟨404, "Destination bucket not found."⟩
  else
    .ok (blobs.foldl (fun acc p =>
      if endsWithS p.1 ".json" then
        match parse p.2 with
        | some content => acc ++ [⟨p.1, content⟩]
        | none => acc
      else acc) [])

/-- GET /processed-invoices/{filename} (api.py `get_single_invoice_content`):
appends ".json"; a missing bucket is 404, a missing blob raises
HTTPException(404) inside the try block which the blanket except
re-raises as a 404 with the "Invoice is under processing" detail, and a
JSON decode failure is 500. -/
def getSingleInvoiceContent (bucketFound : Bool) (blobs : List (String × Nat))
    (parse : Nat → Option (List (String × String))) (filename : String) :
    Except HttpError ProcessedInvoiceRec :=
  let fname := filename ++ ".json"
  if bucketFound = false then
    .error ⟨404, "Destination bucket not found."⟩
  else
    match lookupA blobs fname with
    | none => .error ⟨404, "Invoice is under processing"⟩
    | some c =>
      match parse c with
      | none => .error ⟨500, "Failed to parse JSON content from file " ++ fname ++ "."⟩
      | some content => .ok ⟨fname, content⟩

/-- GET /invoices/view/{filename} (api.py `get_invoice_file`): appends
".pdf" and streams the blob's bytes under the guessed MIME type (default
application/octet-stream); a missing bucket is 404, while a missing blob
raises HTTPException(404) inside the try block which the blanket except
converts to HTTP 500.  `guess` models `mimetypes.guess_type`. -/
def getInvoiceFile (bucketFound : Bool) (blobs : List (String × Nat))
    (guess : String → Option String) (filename : String) :
    Except HttpError (Nat × String) :=
  let fname := filename ++ ".pdf"
  if bucketFound = false then
    .error ⟨404, "Source bucket not found."⟩
  else
    match lookupA blobs fname with
    | none =>
      .error ⟨500, "An unexpected error occurred: 404: Invoice file " ++ fname
        ++ " not found in source bucket."⟩
    | some c => .ok (c, (guess fname).getD "application/octet-stream")

/-- Response model of POST /chat/. -/
structure ChatResponse where
  reply : String
  session_id : String
  deriving DecidableEq

/-- Request model of POST /chat/. -/
structure ChatRequest where
  message : String
  user_id : String
  session_id : Option String
  deriving DecidableEq

/-- POST /chat/ (api.py `handle_chat_message`): continue the requested
session when it exists, otherwise (no id given, or an unknown id) create
a fresh one with `newId`; answer the agent's final reply, with the
apology default when the run produces no final text; any exception in
the body becomes HTTP 500.  `agentFails` models an exception anywhere in
session handling or the agent run, `finalReply` the text of the last
final-response event of the externally hosted LLM agent. -/
def handleChatMessage (sessions : List Session) (req : ChatRequest)
    (newId : String) (agentFails : Bool) (finalReply : Option String) :
    Except HttpError ChatResponse :=
  if agentFails then
    .error ⟨500, "An internal error occurred in the chat service."⟩
  else
    let sessId :=
      match req.session_id with
      | some sid =>
        match findSession sessions sid with
        | some s => s.id
        | none => newId
      | none => newId
    .ok ⟨finalReply.getD "Sorry, I encountered an issue and could not get a response.",
         sessId⟩

/-- DELETE /chat/history/session/{session_id} (api.py
`delete_chat_session`): 503 when the session service is down; a failing
delete call becomes HTTP 500; otherwise the session is removed and the
endpoint answers 204 with no body. -/
def deleteChatSession (svc : Bool) (sessions : List Session) (sid : String)
    (deleteFails : Bool) : List Session × Except HttpError Unit :=
  if svc = false then
    (sessions, .error ⟨503, "Chat service not available."⟩)
  else if deleteFails then
    (sessions, .error ⟨500, "Failed to delete session"⟩)
  else
    (sessions.filter (fun s => !(s.id = sid)), .ok ())

/-- Value of a single document field, tagged by type, with `missing` for an
absent field: used to state which fields a selection depends on. -/
inductive FsValue where
  | s (v : String)
  | i (v : Int)
  | t (v : Nat)
  | missing
  deriving DecidableEq

/-- The fields of an "invoices" collection entry (document id included,
since `search_invoices_by_filename` matches on `invoice.id`). -/
inductive FieldKey where
  | id
  | filename
  | status
  | created_at
  | last_modified
  | gcs_source_uri
  | vendor_name
  | vendor_name_lowercase
  | invoice_number_lowercase
  | total_amount_num
  | currency
  | due_date_dt
  deriving DecidableEq

def optStrVal : Option String → FsValue
  | some v => .s v
  | none => .missing

def optIntVal : Option Int → FsValue
  | some v => .i v
  | none => .missing

def optNatVal : Option Nat → FsValue
  | some v => .t v
  | none => .missing

/-- Value of field `k` of a collection entry (id paired with document). -/
def fieldVal (k : FieldKey) (p : String × InvoiceDoc) : FsValue :=
  match k with
  | .id => .s p.1
  | .filename => optStrVal p.2.filename
  | .status => optStrVal p.2.status
  | .created_at => optNatVal p.2.created_at
  | .last_modified => optNatVal p.2.last_modified
  | .gcs_source_uri => optStrVal p.2.gcs_source_uri
  | .vendor_name => optStrVal p.2.vendor_name
  | .vendor_name_lowercase => optStrVal p.2.vendor_name_lowercase
  | .invoice_number_lowercase => optStrVal p.2.invoice_number_lowercase
  | .total_amount_num => optIntVal p.2.total_amount_num
  | .currency => optStrVal p.2.currency
  | .due_date_dt => optNatVal p.2.due_date_dt

/-- A selection is a single-field query when membership is determined by the
value of one document field. -/
def singleFieldSel (sel : String × InvoiceDoc → Bool) : Prop :=
  ∃ k : FieldKey, ∀ p q, fieldVal k p = fieldVal k q → sel p = sel q

/-- A selection is determined by the pair of fields `k1`, `k2`. -/
def dependsOnTwoFields (k1 k2 : FieldKey) (sel : String × InvoiceDoc → Bool) : Prop :=
  ∀ p q, fieldVal k1 p = fieldVal k1 q → fieldVal k2 p = fieldVal k2 q → sel p = sel q

/-- `where("status", "==", status.upper())` (tools.py line 25). -/
def statusSel (s : String) (p : String × InvoiceDoc) : Bool :=
  p.2.status == some (upperS s)

/-- `where("status", "==", "COMPLETED")` (tools.py lines 80, 154, 190). -/
def completedSel (p : String × InvoiceDoc) : Bool :=
  p.2.status == some "COMPLETED"

/-- `where("vendor_name_lowercase", "==", vendor_name.lower())`. -/
def vendorSel (v : String) (p : String × InvoiceDoc) : Bool :=
  p.2.vendor_name_lowercase == some (lowerS v)

/-- `where("invoice_number_lowercase", "==", invoice_number.lower())`. -/
def numberSel (n : String) (p : String × InvoiceDoc) : Bool :=
  p.2.invoice_number_lowercase == some (lowerS n)

/-- `where("total_amount_num", ">=", amount)`: a Firestore range filter
never returns documents missing the field. -/
def amountSel (a : Int) (p : String × InvoiceDoc) : Bool :=
  match p.2.total_amount_num with
  | some t => a ≤ t
  | none => false

/-- The composite filter of `find_overdue_invoices`:
`where("status", "==", "COMPLETED").where("due_date_dt", "<", today)`. -/
def overdueSel (today : Nat) (p : String × InvoiceDoc) : Bool :=
  completedSel p &&
    (match p.2.due_date_dt with
     | some d => d < today
     | none => false)

/-- `keyword.lower() in invoice.id.lower()` of `search_invoices_by_filename`. -/
def containsSel (kw : String) (p : String × InvoiceDoc) : Bool :=
  containsS (lowerS p.1) (lowerS kw)

/-- Truthiness of `data.get("currency")`: present and not the empty string. -/
def curOf (d : InvoiceDoc) : Option String :=
  match d.currency with
  | some c => if c = "" then none else some c
  | none => none

/-- `set.add`: append a currency only when not already present. -/
def insertNew (cs : List String) (c : String) : List String :=
  if c ∈ cs then cs else cs ++ [c]

/-- One loop step of the currency-set accumulation. -/
def addCur (cs : List String) (d : InvoiceDoc) : List String :=
  match curOf d with
  | some c => insertNew cs c
  | none => cs

/-- tools.py `find_invoices_by_status`: stream the status equality query and
append each document dict. -/
def findInvoicesByStatus (db : Option (List (String × InvoiceDoc))) (status : String) :
    Except String (List InvoiceDoc) :=
  match db with
  | none => .error "Database not connected"
  | some docs =>
    .ok ((docs.filter (statusSel status)).foldl (fun acc p => acc ++ [p.2]) [])

/-- tools.py `find_invoices_by_vendor`: stream the lowercase vendor equality
query and append each document dict. -/
def findInvoicesByVendor (db : Option (List (String × InvoiceDoc))) (vendor_name : String) :
    Except String (List InvoiceDoc) :=
  match db with
  | none => .error "Database not connected"
  | some docs =>
    .ok ((docs.filter (vendorSel vendor_name)).foldl (fun acc p => acc ++ [p.2]) [])

/-- tools.py `find_invoice_by_number`: equality query with `limit(1)`; the
loop returns the first streamed dict, or an empty dict (here `none`). -/
def findInvoiceByNumber (db : Option (List (String × InvoiceDoc))) (invoice_number : String) :
    Except String (Option InvoiceDoc) :=
  match db with
  | none => .error "Database not connected"
  | some docs =>
    match (docs.filter (numberSel invoice_number)).take 1 with
    | [] => .ok none
    | p :: _ => .ok (some p.2)

/-- tools.py `count_invoices_by_status`: the server-side count aggregation
over the status equality query. -/
def countInvoicesByStatus (db : Option (List (String × InvoiceDoc))) (status : String) :
    Except String (String × Nat) :=
  match db with
  | none => .error "Database not connected"
  | some docs => .ok (upperS status, (docs.filter (statusSel status)).length)

/-- tools.py `get_total_amount_for_completed_invoices`: one pass over the
COMPLETED query accumulating the amount total and the currency set; an
empty currency set yields the literal result `(0, "N/A")`, a singleton set
its element, anything else "MIXED". -/
def getTotalAmountForCompletedInvoices (db : Option (List (String × InvoiceDoc))) :
    Except String (Int × String) :=
  match db with
  | none => .error "Database not connected"
  | some docs =>
    let r := (docs.filter completedSel).foldl
      (fun (acc : Int × List String) p =>
        (acc.1 + p.2.total_amount_num.getD 0, addCur acc.2 p.2)) (0, [])
    match r.2 with
    | [] => .ok (0, "N/A")
    | [c] => .ok (r.1, c)
    | _ => .ok (r.1, "MIXED")

/-- tools.py `get_total_amount_for_vendor`: one pass over the vendor query
accumulating count, total and currency set; a zero count yields
`(v, 0, "N/A", 0)`, otherwise the currency is the singleton set's element
and "MIXED" for every other set size (including empty). -/
def getTotalAmountForVendor (db : Option (List (String × InvoiceDoc))) (vendor_name : String) :
    Except String (String × Int × String × Nat) :=
  match db with
  | none => .error "Database not connected"
  | some docs =>
    let r := (docs.filter (vendorSel vendor_name)).foldl
      (fun (acc : Nat × Int × List String) p =>
        (acc.1 + 1, acc.2.1 + p.2.total_amount_num.getD 0, addCur acc.2.2 p.2)) (0, 0, [])
    if r.1 = 0 then .ok (vendor_name, 0, "N/A", 0)
    else .ok (vendor_name, r.2.1, (match r.2.2 with | [c] => c | _ => "MIXED"), r.1)

/-- tools.py `find_invoices_above_amount`: stream the range query and append
each document dict. -/
def findInvoicesAboveAmount (db : Option (List (String × InvoiceDoc))) (amount : Int) :
    Except String (List InvoiceDoc) :=
  match db with
  | none => .error "Database not connected"
  | some docs =>
    .ok ((docs.filter (amountSel amount)).foldl (fun acc p => acc ++ [p.2]) [])

/-- `vendor_totals` default key: `data.get("vendor_name", "Unknown Vendor")`. -/
def vendorOf (d : InvoiceDoc) : String := d.vendor_name.getD "Unknown Vendor"

/-- `data.get("total_amount_num", 0)`. -/
def amountOf (d : InvoiceDoc) : Int := d.total_amount_num.getD 0

/-- `vendor_totals[vendor] += amount` with implicit 0 initialisation:
update the existing binding in place or append a new one. -/
def bump : List (String × Int) → String → Int → List (String × Int)
  | [], v, a => [(v, a)]
  | (k, t) :: rest, v, a =>
    if k = v then (k, t + a) :: rest else (k, t) :: bump rest v a

/-- The `vendor_totals` accumulation loop of `get_top_vendors_by_spending`. -/
def accVendors (acc : List (String × Int)) : List (String × InvoiceDoc) → List (String × Int)
  | [] => acc
  | p :: ps => accVendors (bump acc (vendorOf p.2) (amountOf p.2)) ps

/-- Descending order on the accumulated totals used by
`sorted(vendor_totals.items(), key=lambda item: item[1], reverse=True)`. -/
def pairGe (a b : String × Int) : Prop := b.2 ≤ a.2

instance : DecidableRel pairGe := fun _ _ => Int.decLe _ _

instance : IsTotal (String × Int) pairGe := ⟨fun a b => Int.le_total b.2 a.2⟩

instance : IsTrans (String × Int) pairGe := ⟨fun _ _ _ hab hbc => Int.le_trans hbc hab⟩

/-- tools.py `get_top_vendors_by_spending`: accumulate per-vendor totals
over the COMPLETED query, sort by total descending, keep the first
`limit`. -/
def getTopVendorsBySpending (db : Option (List (String × InvoiceDoc))) (limit : Nat) :
    Except String (List (String × Int)) :=
  match db with
  | none => .error "Database not connected"
  | some docs =>
    .ok ((List.insertionSort pairGe (accVendors [] (docs.filter completedSel))).take limit)

/-- tools.py `find_overdue_invoices`: stream the composite
status-and-due-date query and append each document dict. -/
def findOverdueInvoices (today : Nat) (db : Option (List (String × InvoiceDoc))) :
    Except String (List InvoiceDoc) :=
  match db with
  | none => .error "Database not connected"
  | some docs =>
    .ok ((docs.filter (overdueSel today)).foldl (fun acc p => acc ++ [p.2]) [])

/-- tools.py `search_invoices_by_filename`: stream the whole collection and
keep the documents whose id contains the keyword case-insensitively. -/
def searchInvoicesByFilename (db : Option (List (String × InvoiceDoc))) (keyword : String) :
    Except String (List InvoiceDoc) :=
  match db with
  | none => .error "Database not connected"
  | some docs =>
    .ok (docs.foldl (fun acc p => if containsSel keyword p then acc ++ [p.2] else acc) [])

/-- Linear sum of `total_amount_num` (missing counted 0) over a selection:
the specification-side description of the aggregation tools. -/
def specSumSel (sel : String × InvoiceDoc → Bool) (docs : List (String × InvoiceDoc)) : Int :=
  ((docs.filter sel).map (fun p => p.2.total_amount_num.getD 0)).sum

/-- The distinct truthy currencies of a selection, in first-occurrence
order: the specification-side description of the currency set. -/
def specCurrenciesSel (sel : String × InvoiceDoc → Bool)
    (docs : List (String × InvoiceDoc)) : List String :=
  (docs.filter sel).foldl (fun cs p => addCur cs p.2) []

/-- Specification-side result of `get_total_amount_for_completed_invoices`,
built from the separate sum and currency-set descriptions. -/
def specCompletedTotalsResult (docs : List (String × InvoiceDoc)) : Int × String :=
  match specCurrenciesSel completedSel docs with
  | [] => (0, "N/A")
  | [c] => (specSumSel completedSel docs, c)
  | _ => (specSumSel completedSel docs, "MIXED")

/-- Specification-side result of `get_total_amount_for_vendor`. -/
def specVendorResult (docs : List (String × InvoiceDoc)) (v : String) :
    String × Int × String × Nat :=
  if (docs.filter (vendorSel v)).length = 0 then (v, 0, "N/A", 0)
  else
    (v, specSumSel (vendorSel v) docs,
     (match specCurrenciesSel (vendorSel v) docs with | [c] => c | _ => "MIXED"),
     (docs.filter (vendorSel v)).length)

/-- Linear sum of the amounts of the entries of a list whose vendor name
(with its "Unknown Vendor" default) is `v`. -/
def sumVendorIn (l : List (String × InvoiceDoc)) (v : String) : Int :=
  ((l.filter (fun p => vendorOf p.2 = v)).map (fun p => amountOf p.2)).sum

/-- Linear sum of the amounts of the COMPLETED documents of one vendor. -/
def vendorSum (docs : List (String × InvoiceDoc)) (v : String) : Int :=
  sumVendorIn (docs.filter completedSel) v

/-- The ten tool functions imported and registered by chatassistant/agent.py. -/
inductive ToolName where
  | find_invoices_by_status
  | find_invoices_by_vendor
  | find_invoice_by_number
  | get_total_amount_for_completed_invoices
  | count_invoices_by_status
  | get_total_amount_for_vendor
  | find_invoices_above_amount
  | find_overdue_invoices
  | search_invoices_by_filename
  | get_top_vendors_by_spending
  deriving DecidableEq

/-- The statically constructed `LlmAgent` of chatassistant/agent.py. -/
structure ChatAgentConfig where
  name : String
  model : String
  tools : List ToolName
  deriving DecidableEq

/-- chatassistant/agent.py `chat_agent`: a module-level constant. -/
def chat_agent : ChatAgentConfig :=
  { name := "invoice_chat_agent"
    model := "openai/gpt-4o"
    tools := [.find_invoices_by_status, .find_invoices_by_vendor, .find_invoice_by_number,
              .get_total_amount_for_completed_invoices, .count_invoices_by_status,
              .get_total_amount_for_vendor, .find_invoices_above_amount,
              .find_overdue_invoices, .search_invoices_by_filename,
              .get_top_vendors_by_spending] }

/-- The agent `handle_chat_message` hands to the ADK Runner (api.py line
432): the module constant, whatever the request and database state are. -/
def agentForRequest (_req : ChatRequest) (_st : WorldState) : ChatAgentConfig :=
  chat_agent

/-! ### Helper lemmas -/

theorem lookupA_cons {α : Type} (p : String × α) (rest : List (String × α)) (k : String) :
    lookupA (p :: rest) k = if p.1 = k then some p.2 else lookupA rest k := rfl

theorem eraseA_of_lookupA_none {α : Type} (l : List (String × α)) (k : String)
    (h : lookupA l k = none) : eraseA l k = l := by
  induction l with
  | nil => rfl
  | cons p rest ih =>
    rw [lookupA_cons] at h
    by_cases hk : p.1 = k
    · rw [if_pos hk] at h; cases h
    · rw [if_neg hk] at h
      simp only [eraseA, List.filter_cons]
      have : (decide (p.1 ≠ k)) = true := by simp [hk]
      rw [this]
      simpa [eraseA] using congrArg (p :: ·) (ih h)

theorem lookupA_eraseA_self {α : Type} (l : List (String × α)) (k : String) :
    lookupA (eraseA l k) k = none := by
  induction l with
  | nil => rfl
  | cons p rest ih =>
    simp only [eraseA, List.filter_cons]
    by_cases hk : p.1 = k
    · simpa [hk, eraseA] using ih
    · simpa [hk, eraseA, lookupA_cons] using ih

theorem eraseA_eraseA {α : Type} (l : List (String × α)) (k : String) :
    eraseA (eraseA l k) k = eraseA l k :=
  eraseA_of_lookupA_none _ _ (lookupA_eraseA_self l k)

theorem lookupA_setA_self {α : Type} (l : List (String × α)) (k : String) (v : α) :
    lookupA (setA l k v) k = some v := by
  simp [setA, lookupA_cons]

theorem eraseA_setA {α : Type} (l : List (String × α)) (k : String) (v : α) :
    eraseA (setA l k v) k = eraseA l k := by
  simp only [setA, eraseA, List.filter_cons]
  simp [eraseA_eraseA, eraseA]

theorem foldl_append_map {α β : Type} (f : α → β) (l : List α) :
    ∀ acc : List β, l.foldl (fun a x => a ++ [f x]) acc = acc ++ l.map f := by
  induction l with
  | nil => intro acc; simp
  | cons x xs ih => intro acc; simp [ih]

theorem foldl_filter_append {α β : Type} (sel : α → Bool) (f : α → β) (l : List α) :
    ∀ acc : List β,
      l.foldl (fun a x => if sel x then a ++ [f x] else a) acc
        = acc ++ (l.filter sel).map f := by
  induction l with
  | nil => intro acc; simp
  | cons x xs ih =>
    intro acc
    by_cases hx : sel x
    · simp [List.filter_cons, hx, ih]
    · simp [List.filter_cons, hx, ih]

theorem sum_map_ones {α : Type} (l : List α) :
    (l.map (fun _ => (1 : Nat))).sum = l.length := by
  induction l with
  | nil => rfl
  | cons x xs ih => simp [ih, Nat.add_comm]

theorem foldl_pair_total_cur (l : List (String × InvoiceDoc)) :
    ∀ (t : Int) (cs : List String),
      l.foldl (fun (acc : Int × List String) p =>
          (acc.1 + p.2.total_amount_num.getD 0, addCur acc.2 p.2)) (t, cs)
        = (t + (l.map (fun p => p.2.total_amount_num.getD 0)).sum,
           l.foldl (fun cs p => addCur cs p.2) cs) := by
  induction l with
  | nil => intro t cs; simp
  | cons x xs ih => intro t cs; simp [ih, Int.add_assoc]

theorem foldl_triple_vendor (l : List (String × InvoiceDoc)) :
    ∀ (n : Nat) (t : Int) (cs : List String),
      l.foldl (fun (acc : Nat × Int × List String) p =>
          (acc.1 + 1, acc.2.1 + p.2.total_amount_num.getD 0, addCur acc.2.2 p.2)) (n, t, cs)
        = (n + l.length, t + (l.map (fun p => p.2.total_amount_num.getD 0)).sum,
           l.foldl (fun cs p => addCur cs p.2) cs) := by
  induction l with
  | nil => intro n t cs; simp
  | cons x xs ih =>
    intro n t cs
    simp only [List.foldl_cons, ih, List.length_cons, List.map_cons, List.sum_cons,
      Prod.mk.injEq]
    refine ⟨by omega, by rw [Int.add_assoc], by trivial⟩

theorem mem_insertNew (cs : List String) (c a : String) :
    a ∈ insertNew cs c ↔ a ∈ cs ∨ a = c := by
  unfold insertNew
  by_cases h : c ∈ cs
  · simp only [if_pos h]
    constructor
    · exact Or.inl
    · rintro (h1 | rfl)
      · exact h1
      · exact h
  · simp [h]

theorem nodup_insertNew (cs : List String) (c : String) (h : cs.Nodup) :
    (insertNew cs c).Nodup := by
  unfold insertNew
  by_cases hc : c ∈ cs
  · simpa [hc]
  · simp [hc, List.nodup_append, h, List.disjoint_singleton]

theorem mem_addCur (cs : List String) (d : InvoiceDoc) (a : String) :
    a ∈ addCur cs d ↔ a ∈ cs ∨ curOf d = some a := by
  unfold addCur
  cases hc : curOf d with
  | none => simp
  | some c =>
    rw [mem_insertNew]
    constructor
    · rintro (h1 | rfl)
      · exact Or.inl h1
      · exact Or.inr rfl
    · rintro (h1 | h2)
      · exact Or.inl h1
      · cases h2; exact Or.inr rfl

theorem nodup_addCur (cs : List String) (d : InvoiceDoc) (h : cs.Nodup) :
    (addCur cs d).Nodup := by
  unfold addCur
  cases curOf d with
  | none => exact h
  | some c => exact nodup_insertNew cs c h

theorem mem_curFold (l : List (String × InvoiceDoc)) :
    ∀ (cs : List String) (a : String),
      a ∈ l.foldl (fun cs p => addCur cs p.2) cs
        ↔ a ∈ cs ∨ ∃ p, p ∈ l ∧ curOf p.2 = some a := by
  induction l with
  | nil => simp
  | cons x xs ih =>
    intro cs a
    rw [List.foldl_cons, ih, mem_addCur]
    constructor
    · rintro ((h1 | h2) | ⟨p, hp, hcp⟩)
      · exact Or.inl h1
      · exact Or.inr ⟨x, List.mem_cons_self x xs, h2⟩
      · exact Or.inr ⟨p, List.mem_cons_of_mem x hp, hcp⟩
    · rintro (h1 | ⟨p, hp, hcp⟩)
      · exact Or.inl (Or.inl h1)
      · rcases List.mem_cons.mp hp with rfl | hp2
        · exact Or.inl (Or.inr hcp)
        · exact Or.inr ⟨p, hp2, hcp⟩

theorem nodup_curFold (l : List (String × InvoiceDoc)) :
    ∀ cs : List String, cs.Nodup → (l.foldl (fun cs p => addCur cs p.2) cs).Nodup := by
  induction l with
  | nil => intro cs h; exact h
  | cons x xs ih =>
    intro cs h
    rw [List.foldl_cons]
    exact ih _ (nodup_addCur cs x.2 h)

theorem mapOpt_spec {α β : Type} (f : α → Option β) :
    ∀ (l : List α) (r : List β), mapOpt f l = some r →
      r.length = l.length ∧ ∀ y ∈ r, ∃ x, x ∈ l ∧ f x = some y := by
  intro l
  induction l with
  | nil =>
    intro r h
    simp only [mapOpt] at h
    cases h
    simp
  | cons x xs ih =>
    intro r h
    simp only [mapOpt] at h
    cases hx : f x with
    | none => rw [hx] at h; cases h
    | some b =>
      rw [hx] at h
      cases hxs : mapOpt f xs with
      | none => rw [hxs] at h; cases h
      | some bs =>
        rw [hxs] at h
        cases h
        obtain ⟨hlen, hmem⟩ := ih bs hxs
        refine ⟨by simp [hlen], ?_⟩
        intro y hy
        rcases List.mem_cons.mp hy with rfl | hy2
        · exact ⟨x, List.mem_cons_self x xs, hx⟩
        · obtain ⟨x2, hx2, hfx2⟩ := hmem y hy2
          exact ⟨x2, List.mem_cons_of_mem x hx2, hfx2⟩

theorem mapOpt_of_all_some {α β : Type} (f : α → Option β) :
    ∀ l : List α, (∀ x ∈ l, (f x).isSome) → mapOpt f l = some (l.filterMap f) := by
  intro l
  induction l with
  | nil => intro _; rfl
  | cons x xs ih =>
    intro h
    obtain ⟨b, hb⟩ := Option.isSome_iff_exists.mp (h x (List.mem_cons_self x xs))
    have hxs := ih (fun y hy => h y (List.mem_cons_of_mem x hy))
    simp only [mapOpt, hb, hxs, List.filterMap_cons, hb]

theorem getLast?_eq_get {α : Type} : ∀ l : List α, l.getLast? = l.get? (l.length - 1)
  | [] => rfl
  | [a] => rfl
  | a :: b :: l => by
    rw [List.getLast?_cons_cons, getLast?_eq_get (b :: l)]
    simp [List.length_cons]

theorem get?_zero_eq_head {α : Type} : ∀ l : List α, l.get? 0 = l.head?
  | [] => rfl
  | _ :: _ => rfl

theorem optStrVal_inj {a b : Option String} (h : optStrVal a = optStrVal b) : a = b := by
  cases a <;> cases b <;> simp [optStrVal] at h ⊢ <;> exact h

theorem optIntVal_inj {a b : Option Int} (h : optIntVal a = optIntVal b) : a = b := by
  cases a <;> cases b <;> simp [optIntVal] at h ⊢ <;> exact h

theorem optNatVal_inj {a b : Option Nat} (h : optNatVal a = optNatVal b) : a = b := by
  cases a <;> cases b <;> simp [optNatVal] at h ⊢ <;> exact h

theorem lookupA_nil {α : Type} (k : String) :
    lookupA ([] : List (String × α)) k = none := rfl

theorem bump_cons_eq {k : String} {t : Int} {rest : List (String × Int)} {v : String}
    {a : Int} (h : k = v) : bump ((k, t) :: rest) v a = (k, t + a) :: rest := by
  simp [bump, h]

theorem bump_cons_ne {k : String} {t : Int} {rest : List (String × Int)} {v : String}
    {a : Int} (h : ¬ k = v) : bump ((k, t) :: rest) v a = (k, t) :: bump rest v a := by
  simp [bump, h]

theorem mem_fst_bump (m : List (String × Int)) (v w : String) (a : Int) :
    w ∈ (bump m v a).map Prod.fst ↔ w ∈ m.map Prod.fst ∨ w = v := by
  induction m with
  | nil => simp [bump]
  | cons p rest ih =>
    obtain ⟨k, t⟩ := p
    by_cases hk : k = v
    · rw [bump_cons_eq hk]
      subst hk
      simp only [List.map_cons, List.mem_cons]
      tauto
    · rw [bump_cons_ne hk]
      simp only [List.map_cons, List.mem_cons, ih]
      tauto

theorem nodup_fst_bump (m : List (String × Int)) (v : String) (a : Int)
    (h : (m.map Prod.fst).Nodup) : ((bump m v a).map Prod.fst).Nodup := by
  induction m with
  | nil => simp [bump]
  | cons p rest ih =>
    obtain ⟨k, t⟩ := p
    simp only [List.map_cons, List.nodup_cons] at h
    by_cases hk : k = v
    · rw [bump_cons_eq hk]
      simp only [List.map_cons, List.nodup_cons]
      exact h
    · rw [bump_cons_ne hk]
      simp only [List.map_cons, List.nodup_cons]
      refine ⟨?_, ih h.2⟩
      intro hmem
      rcases (mem_fst_bump rest v k a).mp hmem with h1 | h2
      · exact h.1 h1
      · exact hk h2

theorem lookupA_bump (m : List (String × Int)) (v w : String) (a : Int) :
    lookupA (bump m v a) w
      = if w = v then some ((lookupA m v).getD 0 + a) else lookupA m w := by
  induction m with
  | nil =>
    by_cases h : w = v
    · subst h
      simp [bump, lookupA_cons, lookupA_nil]
    · have h2 : ¬ v = w := fun hvw => h hvw.symm
      simp [bump, lookupA_cons, lookupA_nil, h, h2]
  | cons p rest ih =>
    obtain ⟨k, t⟩ := p
    by_cases hk : k = v
    · rw [bump_cons_eq hk]
      subst hk
      by_cases hw : w = k
      · subst hw
        simp [lookupA_cons]
      · have hkw : ¬ k = w := fun hvw => hw hvw.symm
        simp [lookupA_cons, hkw, hw]
    · rw [bump_cons_ne hk]
      by_cases hw : w = v
      · subst hw
        have hkw : ¬ k = w := hk
        simp [lookupA_cons, hkw, ih]
      · by_cases hkw : k = w
        · subst hkw
          simp [lookupA_cons, hw]
        · simp [lookupA_cons, hkw, hw, ih]

theorem sumVendorIn_cons (p : String × InvoiceDoc) (ps : List (String × InvoiceDoc))
    (v : String) :
    sumVendorIn (p :: ps) v
      = (if vendorOf p.2 = v then amountOf p.2 else 0) + sumVendorIn ps v := by
  unfold sumVendorIn
  by_cases h : vendorOf p.2 = v
  · simp [List.filter_cons, h]
  · simp [List.filter_cons, h]

theorem getD_lookupA_accVendors (l : List (String × InvoiceDoc)) :
    ∀ (m : List (String × Int)) (v : String),
      (lookupA (accVendors m l) v).getD 0 = (lookupA m v).getD 0 + sumVendorIn l v := by
  induction l with
  | nil => intro m v; simp [accVendors, sumVendorIn]
  | cons p ps ih =>
    intro m v
    rw [show accVendors m (p :: ps) = accVendors (bump m (vendorOf p.2) (amountOf p.2)) ps
        from rfl,
      ih, lookupA_bump, sumVendorIn_cons]
    by_cases h : v = vendorOf p.2
    · subst h
      simp [Int.add_assoc]
    · have h2 : ¬ vendorOf p.2 = v := fun hv => h hv.symm
      simp [h, h2]

theorem nodup_fst_accVendors (l : List (String × InvoiceDoc)) :
    ∀ m : List (String × Int),
      (m.map Prod.fst).Nodup → ((accVendors m l).map Prod.fst).Nodup := by
  induction l with
  | nil => intro m h; exact h
  | cons p ps ih =>
    intro m h
    exact ih _ (nodup_fst_bump m (vendorOf p.2) (amountOf p.2) h)

theorem lookupA_of_mem_nodup (m : List (String × Int)) (v : String) (t : Int)
    (hm : (v, t) ∈ m) (hn : (m.map Prod.fst).Nodup) : lookupA m v = some t := by
  induction m with
  | nil => cases hm
  | cons p rest ih =>
    simp only [List.map_cons, List.nodup_cons] at hn
    rcases List.mem_cons.mp hm with rfl | h2
    · simp [lookupA_cons]
    · rw [lookupA_cons]
      by_cases hk : p.1 = v
      · exact absurd (List.mem_map.mpr ⟨(v, t), h2, rfl⟩) (hk ▸ hn.1)
      · rw [if_neg hk]
        exact ih h2 hn.2

theorem pyNegIdx_some {α : Type} (l : List α) (k : Nat) (a : α)
    (h : pyNegIdx l k = some a) : k ≤ l.length ∧ l.get? (l.length - k) = some a := by
  unfold pyNegIdx at h
  by_cases hk : k ≤ l.length
  · rw [if_pos hk] at h; exact ⟨hk, h⟩
  · rw [if_neg hk] at h; cases h

theorem mkSummary_spec (sess : Session) (s : SessionSummary)
    (h : mkSummary sess = some s) :
    s.id = sess.id ∧ s.last_updated = sess.last_update_time ∧
      specLastMessage sess = some s.last_message := by
  unfold mkSummary at h
  cases h1 : pyNegIdx sess.events 1 with
  | none => rw [h1] at h; cases h
  | some lastE =>
    rw [h1, Option.some_bind] at h
    cases h2 : pyNegIdx sess.events 2 with
    | none => rw [h2] at h; cases h
    | some lastBut =>
      rw [h2, Option.some_bind] at h
      obtain ⟨_, h1'⟩ := pyNegIdx_some _ _ _ h1
      obtain ⟨_, h2'⟩ := pyNegIdx_some _ _ _ h2
      have hLast : sess.events.getLast? = some lastE := by
        rw [getLast?_eq_get]; exact h1'
      by_cases hrole : lastE.role = "model"
      · rw [if_pos hrole] at h
        cases h3 : lastE.parts.get? 0 with
        | none => rw [h3] at h; cases h
        | some p =>
          rw [h3, Option.some_bind] at h
          cases h4 : p.text with
          | none => rw [h4] at h; cases h
          | some txt =>
            rw [h4] at h
            cases h
            refine ⟨rfl, rfl, ?_⟩
            unfold specLastMessage
            rw [hLast, Option.some_bind, if_pos hrole, ← get?_zero_eq_head, h3,
              Option.some_bind, h4]
      · rw [if_neg hrole] at h
        cases h3 : lastBut.parts.get? 0 with
        | none => rw [h3] at h; cases h
        | some p =>
          rw [h3, Option.some_bind] at h
          cases h4 : p.text with
          | none => rw [h4] at h; cases h
          | some txt =>
            rw [h4] at h
            cases h
            refine ⟨rfl, rfl, ?_⟩
            unfold specLastMessage
            rw [hLast, Option.some_bind, if_neg hrole, h2', Option.some_bind,
              ← get?_zero_eq_head, h3, Option.some_bind, h4]

/-! ### Branch characterizations of upload_invoice -/

theorem lookupA_none_of_not_exists {α : Type} {l : List (String × α)} {k : String}
    (h : existsA l k = false) : lookupA l k = none := by
  unfold existsA at h
  cases hl : lookupA l k with
  | none => rfl
  | some w => rw [hl] at h; cases h

theorem uploadInvoice_err_exists (bucket : String) (st : WorldState) (f : String)
    (c now : Nat) (oracle : FailureOracle) (h1 : existsA st.sourceBucket f = true) :
    uploadInvoice bucket st f c now oracle
      = (st, .error ⟨400, "File " ++ f ++ " already exists."⟩) := by
  unfold uploadInvoice
  rw [h1]
  simp

theorem uploadInvoice_err_upload (bucket : String) (st : WorldState) (f : String)
    (c now : Nat) (oracle : FailureOracle) (h1 : existsA st.sourceBucket f = false)
    (h2 : oracle.uploadFails = true) :
    uploadInvoice bucket st f c now oracle = (st, .error ⟨400, oracle.uploadErrMsg⟩) := by
  unfold uploadInvoice
  rw [h1, h2]
  simp

theorem uploadInvoice_err_db (bucket : String) (st : WorldState) (f : String)
    (c now : Nat) (oracle : FailureOracle) (h1 : existsA st.sourceBucket f = false)
    (h2 : oracle.uploadFails = false) (h3 : oracle.dbWriteFails = true) :
    uploadInvoice bucket st f c now oracle
      = ({ st with sourceBucket := eraseA (setA st.sourceBucket f c) f },
         .error ⟨400, oracle.dbErrMsg⟩) := by
  unfold uploadInvoice
  rw [h1, h2, h3]
  simp

theorem uploadInvoice_ok_eq (bucket : String) (st : WorldState) (f : String)
    (c now : Nat) (oracle : FailureOracle) (h1 : existsA st.sourceBucket f = false)
    (h2 : oracle.uploadFails = false) (h3 : oracle.dbWriteFails = false) :
    uploadInvoice bucket st f c now oracle
      = ({ st with
            sourceBucket := setA st.sourceBucket f c
            invoices := setA st.invoices f (uploadedDoc bucket f now) },
         .ok ⟨"success", gcsUriOf bucket f, f⟩) := by
  unfold uploadInvoice
  rw [h1, h2, h3]
  simp

theorem deleteInvoice_snd_cases (st : WorldState) (f : String) :
    (deleteInvoice st f).2 = .error ⟨500, deleteNotFoundDetail f⟩
    ∨ ∃ r : DeleteResponse, (deleteInvoice st f).2 = .ok r := by
  unfold deleteInvoice
  cases hr : deleteScan st f with
  | mk st3 flags =>
    obtain ⟨bS, bT, bF⟩ := flags
    cases hc : (!bS && !bT && !bF) with
    | true => simp [hc]
    | false => simp [hc]

/-! ### Claim theorems -/

/-- C1: every call to POST /upload-invoice that returns successfully stores
the uploaded content as a blob named after the file in the source bucket,
creates an "invoices" document keyed by the filename whose status is
"UPLOADED" and whose gcs_source_uri is gs://bucket/filename, and responds
with status "success", that URI and the filename. -/
theorem C1_upload_success (bucket : String) (st : WorldState) (f : String)
    (c now : Nat) (oracle : FailureOracle) (resp : UploadResponse)
    (h : (uploadInvoice bucket st f c now oracle).2 = .ok resp) :
    lookupA (uploadInvoice bucket st f c now oracle).1.sourceBucket f = some c
    ∧ (∃ doc : InvoiceDoc,
        lookupA (uploadInvoice bucket st f c now oracle).1.invoices f = some doc
        ∧ doc.filename = some f
        ∧ doc.status = some "UPLOADED"
        ∧ doc.gcs_source_uri = some (gcsUriOf bucket f))
    ∧ resp = ⟨"success", gcsUriOf bucket f, f⟩ := by
  cases h1 : existsA st.sourceBucket f with
  | true => rw [uploadInvoice_err_exists bucket st f c now oracle h1] at h; simp at h
  | false =>
    cases h2 : oracle.uploadFails with
    | true => rw [uploadInvoice_err_upload bucket st f c now oracle h1 h2] at h; simp at h
    | false =>
      cases h3 : oracle.dbWriteFails with
      | true => rw [uploadInvoice_err_db bucket st f c now oracle h1 h2 h3] at h; simp at h
      | false =>
        rw [uploadInvoice_ok_eq bucket st f c now oracle h1 h2 h3] at h ⊢
        simp only [Except.ok.injEq] at h
        refine ⟨?_, ⟨uploadedDoc bucket f now, ?_, rfl, rfl, rfl⟩, h.symm⟩
        · exact lookupA_setA_self st.sourceBucket f c
        · exact lookupA_setA_self st.invoices f _

/-- C1 witness: a concrete successful upload into the empty world. -/
theorem C1_upload_success_witness :
    (uploadInvoice "bkt" emptyWorld "inv.pdf" 7 3 {}).2
        = .ok ⟨"success", gcsUriOf "bkt" "inv.pdf", "inv.pdf"⟩
    ∧ (lookupA (uploadInvoice "bkt" emptyWorld "inv.pdf" 7 3 {}).1.sourceBucket "inv.pdf"
          = some 7
      ∧ (∃ doc : InvoiceDoc,
          lookupA (uploadInvoice "bkt" emptyWorld "inv.pdf" 7 3 {}).1.invoices "inv.pdf"
              = some doc
          ∧ doc.filename = some "inv.pdf"
          ∧ doc.status = some "UPLOADED"
          ∧ doc.gcs_source_uri = some (gcsUriOf "bkt" "inv.pdf"))
      ∧ (⟨"success", gcsUriOf "bkt" "inv.pdf", "inv.pdf"⟩ : UploadResponse)
          = ⟨"success", gcsUriOf "bkt" "inv.pdf", "inv.pdf"⟩) :=
  ⟨rfl, C1_upload_success "bkt" emptyWorld "inv.pdf" 7 3 {} _ rfl⟩

/-- C8: an upload_invoice execution that reports an error leaves the world
exactly as it found it: in particular the rollback after a failed
Firestore write removes the just-uploaded blob, so no error run leaves a
blob without its "invoices" document. -/
theorem C8_upload_error_rolls_back (bucket : String) (st : WorldState) (f : String)
    (c now : Nat) (oracle : FailureOracle) (e : HttpError)
    (h : (uploadInvoice bucket st f c now oracle).2 = .error e) :
    (uploadInvoice bucket st f c now oracle).1 = st
    ∧ (existsA st.sourceBucket f = false →
        existsA (uploadInvoice bucket st f c now oracle).1.sourceBucket f = false) := by
  suffices hst : (uploadInvoice bucket st f c now oracle).1 = st by
    refine ⟨hst, fun hf => ?_⟩
    rw [hst]
    exact hf
  cases h1 : existsA st.sourceBucket f with
  | true => rw [uploadInvoice_err_exists bucket st f c now oracle h1]
  | false =>
    cases h2 : oracle.uploadFails with
    | true => rw [uploadInvoice_err_upload bucket st f c now oracle h1 h2]
    | false =>
      cases h3 : oracle.dbWriteFails with
      | true =>
        rw [uploadInvoice_err_db bucket st f c now oracle h1 h2 h3]
        have hnone := lookupA_none_of_not_exists h1
        show { st with sourceBucket := eraseA (setA st.sourceBucket f c) f } = st
        rw [eraseA_setA, eraseA_of_lookupA_none _ _ hnone]
      | false =>
        rw [uploadInvoice_ok_eq bucket st f c now oracle h1 h2 h3] at h
        simp at h

/-- C8 witness: a concrete upload whose Firestore write fails: the final
state is the initial empty world again. -/
theorem C8_upload_error_rolls_back_witness :
    (uploadInvoice "bkt" emptyWorld "inv.pdf" 7 3 ⟨false, "", true, "boom"⟩).2
        = .error ⟨400, "boom"⟩
    ∧ ((uploadInvoice "bkt" emptyWorld "inv.pdf" 7 3 ⟨false, "", true, "boom"⟩).1 = emptyWorld
      ∧ (existsA emptyWorld.sourceBucket "inv.pdf" = false →
          existsA (uploadInvoice "bkt" emptyWorld "inv.pdf" 7 3
              ⟨false, "", true, "boom"⟩).1.sourceBucket "inv.pdf" = false)) :=
  ⟨rfl, C8_upload_error_rolls_back "bkt" emptyWorld "inv.pdf" 7 3 ⟨false, "", true, "boom"⟩
    ⟨400, "boom"⟩ rfl⟩

/-- C9: uploading a filename that already names a blob in the source bucket
fails with HTTP 400 and changes nothing: the returned state is the input
state, so the blob is not overwritten and no document is written. -/
theorem C9_upload_existing_rejected (bucket : String) (st : WorldState) (f : String)
    (c now : Nat) (oracle : FailureOracle)
    (h : existsA st.sourceBucket f = true) :
    uploadInvoice bucket st f c now oracle
      = (st, .error ⟨400, "File " ++ f ++ " already exists."⟩) :=
  uploadInvoice_err_exists bucket st f c now oracle h

/-- C9 witness: a concrete upload of an already-present filename. -/
theorem C9_upload_existing_rejected_witness :
    existsA (⟨[("inv.pdf", 7)], [], []⟩ : WorldState).sourceBucket "inv.pdf" = true
    ∧ uploadInvoice "bkt" ⟨[("inv.pdf", 7)], [], []⟩ "inv.pdf" 9 3 {}
        = (⟨[("inv.pdf", 7)], [], []⟩,
           .error ⟨400, "File " ++ "inv.pdf" ++ " already exists."⟩) :=
  ⟨rfl, C9_upload_existing_rejected "bkt" ⟨[("inv.pdf", 7)], [], []⟩ "inv.pdf" 9 3 {} rfl⟩

/-- C2: evaluation at a filename absent from both buckets and Firestore:
delete_invoice answers HTTP 500 (its HTTPException(404) is swallowed by
its own blanket except clause), not the 404 the claim and the code's own
comment promise; the state is untouched. -/
theorem C2_delete_not_found_is_500 :
    deleteInvoice emptyWorld "inv1.pdf"
      = (emptyWorld, .error ⟨500, deleteNotFoundDetail "inv1.pdf"⟩) := by
  rfl

/-- C6: for each of the twelve endpoints of api.py, every error outcome is
an HTTPException value with an HTTP error status code (at least 400) and
a detail string, never a raw upstream exception; upload_invoice in
particular maps every failure to status 400 with the raised exception's
message as the detail. -/
theorem C6_errors_become_http_errors
    (bucket : String) (st : WorldState) (f : String) (c now : Nat)
    (oracle : FailureOracle) (st2 : WorldState) (f2 : String)
    (docs : List (String × InvoiceDoc)) (svc : Bool) (sessions : List Session)
    (sid : String) (tFound sFound : Bool) (tblobs sblobs : List (String × Nat))
    (parse : Nat → Option (List (String × String))) (guess : String → Option String)
    (pfile vfile : String) (req : ChatRequest) (newId : String)
    (agentFails : Bool) (finalReply : Option String) (delFails : Bool) :
    (∀ e, (uploadInvoice bucket st f c now oracle).2 = .error e →
        e.status = 400
        ∧ (e.detail = "File " ++ f ++ " already exists."
            ∨ e.detail = oracle.uploadErrMsg ∨ e.detail = oracle.dbErrMsg))
    ∧ (∀ e, (deleteInvoice st2 f2).2 = .error e → 400 ≤ e.status)
    ∧ (∀ e, listInvoicesWithStatus docs = .error e → 400 ≤ e.status)
    ∧ (∀ e, getSessionHistoryForUser svc sessions = .error e → 400 ≤ e.status)
    ∧ (∀ e, getMessagesForSession svc sessions sid = .error e → 400 ≤ e.status)
    ∧ (∀ e, readRoot = .error e → 400 ≤ e.status)
    ∧ (∀ e, getAllInvoiceStatuses docs = .error e → 400 ≤ e.status)
    ∧ (∀ e, listProcessedInvoicesContent tFound tblobs parse = .error e → 400 ≤ e.status)
    ∧ (∀ e, getSingleInvoiceContent tFound tblobs parse pfile = .error e → 400 ≤ e.status)
    ∧ (∀ e, getInvoiceFile sFound sblobs guess vfile = .error e → 400 ≤ e.status)
    ∧ (∀ e, handleChatMessage sessions req newId agentFails finalReply = .error e →
        400 ≤ e.status)
    ∧ (∀ e, (deleteChatSession svc sessions sid delFails).2 = .error e → 400 ≤ e.status) := by
  refine ⟨?_, ?_, ?_, ?_, ?_, ?_, ?_, ?_, ?_, ?_, ?_, ?_⟩
  · intro e h
    cases h1 : existsA st.sourceBucket f with
    | true =>
      rw [uploadInvoice_err_exists bucket st f c now oracle h1] at h
      simp at h
      rw [← h]
      exact ⟨rfl, Or.inl rfl⟩
    | false =>
      cases h2 : oracle.uploadFails with
      | true =>
        rw [uploadInvoice_err_upload bucket st f c now oracle h1 h2] at h
        simp at h
        rw [← h]
        exact ⟨rfl, Or.inr (Or.inl rfl)⟩
      | false =>
        cases h3 : oracle.dbWriteFails with
        | true =>
          rw [uploadInvoice_err_db bucket st f c now oracle h1 h2 h3] at h
          simp at h
          rw [← h]
          exact ⟨rfl, Or.inr (Or.inr rfl)⟩
        | false =>
          rw [uploadInvoice_ok_eq bucket st f c now oracle h1 h2 h3] at h
          simp at h
  · intro e h
    rcases deleteInvoice_snd_cases st2 f2 with hc | ⟨r, hc⟩
    · rw [hc] at h
      injection h with h
      rw [← h]
      show (400 : Nat) ≤ 500
      decide
    · rw [hc] at h
      exact Except.noConfusion h
  · intro e h
    unfold listInvoicesWithStatus at h
    cases hm : mapOpt mkRec docs with
    | none =>
      rw [hm] at h
      injection h with h
      rw [← h]
      decide
    | some recs => rw [hm] at h; cases h
  · intro e h
    unfold getSessionHistoryForUser at h
    by_cases hsvc : svc = false
    · rw [if_pos hsvc] at h
      injection h with h
      rw [← h]
      decide
    · rw [if_neg hsvc] at h
      cases hm : mapOpt mkSummary sessions with
      | none =>
        rw [hm] at h
        injection h with h
        rw [← h]
        decide
      | some summaries => rw [hm] at h; cases h
  · intro e
    unfold getMessagesForSession
    split
    · intro h
      injection h with h
      rw [← h]
      decide
    · split
      · intro h
        injection h with h
        rw [← h]
        decide
      · split
        · intro h
          injection h with h
          rw [← h]
          decide
        · intro h
          exact Except.noConfusion h
  · intro e h
    exact Except.noConfusion h
  · intro e h
    unfold getAllInvoiceStatuses at h
    cases hm : mapOpt mkStatusRec docs with
    | none =>
      rw [hm] at h
      injection h with h
      rw [← h]
      decide
    | some recs => rw [hm] at h; cases h
  · intro e h
    unfold listProcessedInvoicesContent at h
    by_cases hb : tFound = false
    · rw [if_pos hb] at h
      injection h with h
      rw [← h]
      decide
    · rw [if_neg hb] at h
      exact Except.noConfusion h
  · intro e
    simp only [getSingleInvoiceContent]
    split
    · intro h
      injection h with h
      rw [← h]
      decide
    · split
      · intro h
        injection h with h
        rw [← h]
        decide
      · split
        · intro h
          injection h with h
          rw [← h]
          show (400 : Nat) ≤ 500
          decide
        · intro h
          exact Except.noConfusion h
  · intro e
    simp only [getInvoiceFile]
    split
    · intro h
      injection h with h
      rw [← h]
      decide
    · split
      · intro h
        injection h with h
        rw [← h]
        show (400 : Nat) ≤ 500
        decide
      · intro h
        exact Except.noConfusion h
  · intro e h
    unfold handleChatMessage at h
    by_cases ha : agentFails = true
    · rw [if_pos ha] at h
      injection h with h
      rw [← h]
      decide
    · rw [if_neg ha] at h
      exact Except.noConfusion h
  · intro e h
    unfold deleteChatSession at h
    by_cases hs : svc = false
    · rw [if_pos hs] at h
      have h2 : (Except.error ⟨503, "Chat service not available."⟩
          : Except HttpError Unit) = .error e := h
      injection h2 with h2
      rw [← h2]
      decide
    · rw [if_neg hs] at h
      by_cases hd : delFails = true
      · rw [if_pos hd] at h
        have h2 : (Except.error ⟨500, "Failed to delete session"⟩
            : Except HttpError Unit) = .error e := h
        injection h2 with h2
        rw [← h2]
        decide
      · rw [if_neg hd] at h
        exact Except.noConfusion h

/-- C6 witness: a concrete failing upload carrying the Firestore error
message as its 400 detail. -/
theorem C6_errors_become_http_errors_witness :
    (uploadInvoice "bkt" emptyWorld "inv.pdf" 7 3 ⟨false, "", true, "db down"⟩).2
        = .error ⟨400, "db down"⟩
    ∧ ((⟨400, "db down"⟩ : HttpError).status = 400
      ∧ ((⟨400, "db down"⟩ : HttpError).detail = "File " ++ "inv.pdf" ++ " already exists."
          ∨ (⟨400, "db down"⟩ : HttpError).detail
              = (⟨false, "", true, "db down"⟩ : FailureOracle).uploadErrMsg
          ∨ (⟨400, "db down"⟩ : HttpError).detail
              = (⟨false, "", true, "db down"⟩ : FailureOracle).dbErrMsg)) :=
  ⟨rfl,
    (C6_errors_become_http_errors "bkt" emptyWorld "inv.pdf" 7 3
        ⟨false, "", true, "db down"⟩ emptyWorld "x" [] true [] "s"
        true true [] [] (fun _ => none) (fun _ => none) "p" "v"
        ⟨"m", "u", none⟩ "n" false none false).1
      ⟨400, "db down"⟩ rfl⟩

/-! ### Tool characterization lemmas -/

theorem singleFieldSel_status (s : String) : singleFieldSel (statusSel s) := by
  refine ⟨.status, fun p q h => ?_⟩
  have h2 := optStrVal_inj h
  simp only [statusSel, h2]

theorem singleFieldSel_vendor (v : String) : singleFieldSel (vendorSel v) := by
  refine ⟨.vendor_name_lowercase, fun p q h => ?_⟩
  have h2 := optStrVal_inj h
  simp only [vendorSel, h2]

theorem singleFieldSel_number (n : String) : singleFieldSel (numberSel n) := by
  refine ⟨.invoice_number_lowercase, fun p q h => ?_⟩
  have h2 := optStrVal_inj h
  simp only [numberSel, h2]

theorem singleFieldSel_amount (a : Int) : singleFieldSel (amountSel a) := by
  refine ⟨.total_amount_num, fun p q h => ?_⟩
  have h2 := optIntVal_inj h
  simp only [amountSel, h2]

theorem singleFieldSel_contains (kw : String) : singleFieldSel (containsSel kw) := by
  refine ⟨.id, fun p q h => ?_⟩
  have h2 : p.1 = q.1 := by
    have h3 : FsValue.s p.1 = FsValue.s q.1 := h
    injection h3
  simp only [containsSel, h2]

theorem overdue_depends_on_two_fields (today : Nat) :
    dependsOnTwoFields .status .due_date_dt (overdueSel today) := by
  intro p q h1 h2
  have hs := optStrVal_inj h1
  have hd := optNatVal_inj h2
  simp only [overdueSel, completedSel, hs, hd]

theorem findInvoicesByStatus_eq (docs : List (String × InvoiceDoc)) (s : String) :
    findInvoicesByStatus (some docs) s
      = .ok ((docs.filter (statusSel s)).map Prod.snd) := by
  show Except.ok ((docs.filter (statusSel s)).foldl (fun acc p => acc ++ [p.2]) [])
      = Except.ok ((docs.filter (statusSel s)).map Prod.snd)
  rw [foldl_append_map]
  simp

theorem findInvoicesByVendor_eq (docs : List (String × InvoiceDoc)) (v : String) :
    findInvoicesByVendor (some docs) v
      = .ok ((docs.filter (vendorSel v)).map Prod.snd) := by
  show Except.ok ((docs.filter (vendorSel v)).foldl (fun acc p => acc ++ [p.2]) [])
      = Except.ok ((docs.filter (vendorSel v)).map Prod.snd)
  rw [foldl_append_map]
  simp

theorem findInvoiceByNumber_eq (docs : List (String × InvoiceDoc)) (num : String) :
    findInvoiceByNumber (some docs) num
      = .ok (((docs.filter (numberSel num)).map Prod.snd).head?) := by
  show (match (docs.filter (numberSel num)).take 1 with
        | [] => Except.ok none
        | p :: _ => Except.ok (some p.2))
      = .ok (((docs.filter (numberSel num)).map Prod.snd).head?)
  cases hf : docs.filter (numberSel num) with
  | nil => rfl
  | cons p ps => rfl

theorem findInvoicesAboveAmount_eq (docs : List (String × InvoiceDoc)) (a : Int) :
    findInvoicesAboveAmount (some docs) a
      = .ok ((docs.filter (amountSel a)).map Prod.snd) := by
  show Except.ok ((docs.filter (amountSel a)).foldl (fun acc p => acc ++ [p.2]) [])
      = Except.ok ((docs.filter (amountSel a)).map Prod.snd)
  rw [foldl_append_map]
  simp

theorem findOverdueInvoices_eq (docs : List (String × InvoiceDoc)) (today : Nat) :
    findOverdueInvoices today (some docs)
      = .ok ((docs.filter (overdueSel today)).map Prod.snd) := by
  show Except.ok ((docs.filter (overdueSel today)).foldl (fun acc p => acc ++ [p.2]) [])
      = Except.ok ((docs.filter (overdueSel today)).map Prod.snd)
  rw [foldl_append_map]
  simp

theorem searchInvoicesByFilename_eq (docs : List (String × InvoiceDoc)) (kw : String) :
    searchInvoicesByFilename (some docs) kw
      = .ok ((docs.filter (containsSel kw)).map Prod.snd) := by
  show Except.ok (docs.foldl (fun acc p => if containsSel kw p then acc ++ [p.2] else acc) [])
      = Except.ok ((docs.filter (containsSel kw)).map Prod.snd)
  rw [foldl_filter_append]
  simp

theorem countInvoicesByStatus_eq (docs : List (String × InvoiceDoc)) (s : String) :
    countInvoicesByStatus (some docs) s
      = .ok (upperS s, ((docs.filter (statusSel s)).map (fun _ => (1 : Nat))).sum) := by
  show Except.ok (upperS s, (docs.filter (statusSel s)).length)
      = .ok (upperS s, ((docs.filter (statusSel s)).map (fun _ => (1 : Nat))).sum)
  rw [sum_map_ones]

theorem getTotalCompleted_eq (docs : List (String × InvoiceDoc)) :
    getTotalAmountForCompletedInvoices (some docs)
      = .ok (specCompletedTotalsResult docs) := by
  simp only [getTotalAmountForCompletedInvoices, specCompletedTotalsResult,
    specCurrenciesSel, specSumSel, foldl_pair_total_cur]
  rcases hC : (docs.filter completedSel).foldl (fun cs p => addCur cs p.2) []
    with _ | ⟨c, _ | ⟨c2, cs⟩⟩ <;> simp [hC]

theorem getTotalVendor_eq (docs : List (String × InvoiceDoc)) (v : String) :
    getTotalAmountForVendor (some docs) v = .ok (specVendorResult docs v) := by
  simp only [getTotalAmountForVendor, specVendorResult, specSumSel, specCurrenciesSel,
    foldl_triple_vendor]
  by_cases hn : (docs.filter (vendorSel v)).length = 0
  · simp [hn]
  · simp [hn]

theorem topVendors_spec (docs : List (String × InvoiceDoc)) (limit : Nat)
    (out : List (String × Int))
    (h : getTopVendorsBySpending (some docs) limit = .ok out) :
    out.length ≤ limit ∧ ∀ p ∈ out, p.2 = vendorSum docs p.1 := by
  unfold getTopVendorsBySpending at h
  injection h with h
  subst h
  constructor
  · exact List.length_take_le _ _
  · intro p hp
    have hp2 : p ∈ List.insertionSort pairGe (accVendors [] (docs.filter completedSel)) :=
      List.take_subset _ _ hp
    have hp3 : p ∈ accVendors [] (docs.filter completedSel) :=
      (List.perm_insertionSort pairGe _).mem_iff.mp hp2
    have hn : ((accVendors [] (docs.filter completedSel)).map Prod.fst).Nodup :=
      nodup_fst_accVendors (docs.filter completedSel) [] (by simp)
    obtain ⟨pv, pt⟩ := p
    have hl : lookupA (accVendors [] (docs.filter completedSel)) pv = some pt :=
      lookupA_of_mem_nodup _ _ _ hp3 hn
    have hg := getD_lookupA_accVendors (docs.filter completedSel) [] pv
    rw [hl, lookupA_nil] at hg
    simpa [vendorSum] using hg

/-- C10 counterexample: a database state whose single "invoices" document
has none of the three fields: building its InvoiceStatus record raises,
so the endpoint answers HTTP 500 and returns no records at all. -/
theorem C10_counterexample :
    ¬ ∃ out, listInvoicesWithStatus [("a.pdf", ({} : InvoiceDoc))] = .ok out := by
  rintro ⟨out, h⟩
  have he : listInvoicesWithStatus [("a.pdf", ({} : InvoiceDoc))]
      = .error ⟨500, "Failed to list invoices from database"⟩ := rfl
  rw [he] at h
  exact Except.noConfusion h

/-- C10 amended: for every database state in which each "invoices" document
carries filename, status and last_modified values, GET /invoices/ returns
exactly one record per document, sorted by last_modified in descending
order. -/
theorem C10_list_invoices_sorted (docs : List (String × InvoiceDoc))
    (h : ∀ p ∈ docs, (mkRec p).isSome) :
    ∃ out, listInvoicesWithStatus docs = .ok out
      ∧ out.length = docs.length
      ∧ List.Sorted recGe out
      ∧ out.Perm (docs.filterMap mkRec) := by
  have hm := mapOpt_of_all_some mkRec docs h
  refine ⟨List.insertionSort recGe (docs.filterMap mkRec), ?_, ?_, ?_, ?_⟩
  · unfold listInvoicesWithStatus
    rw [hm]
  · rw [(List.perm_insertionSort recGe _).length_eq]
    exact (mapOpt_spec mkRec docs _ hm).1
  · exact List.sorted_insertionSort recGe _
  · exact List.perm_insertionSort recGe _

/-- C10 witness: two well-formed documents are listed and sorted. -/
theorem C10_list_invoices_sorted_witness :
    (∀ p ∈ ([("a.pdf", { filename := some "a.pdf", status := some "UPLOADED", last_modified := some 5 }),
             ("b.pdf", { filename := some "b.pdf", status := some "COMPLETED", last_modified := some 9 })] : List (String × InvoiceDoc)),
        (mkRec p).isSome)
    ∧ ∃ out, listInvoicesWithStatus
          ([("a.pdf", { filename := some "a.pdf", status := some "UPLOADED", last_modified := some 5 }),
            ("b.pdf", { filename := some "b.pdf", status := some "COMPLETED", last_modified := some 9 })] : List (String × InvoiceDoc)) = .ok out
        ∧ out.length = ([("a.pdf", { filename := some "a.pdf", status := some "UPLOADED", last_modified := some 5 }),
            ("b.pdf", { filename := some "b.pdf", status := some "COMPLETED", last_modified := some 9 })] : List (String × InvoiceDoc)).length
        ∧ List.Sorted recGe out
        ∧ out.Perm (([("a.pdf", { filename := some "a.pdf", status := some "UPLOADED", last_modified := some 5 }),
            ("b.pdf", { filename := some "b.pdf", status := some "COMPLETED", last_modified := some 9 })] : List (String × InvoiceDoc)).filterMap mkRec) :=
  ⟨by decide, C10_list_invoices_sorted _ (by decide)⟩

/-- C7: when GET /chat/history/{user_id} succeeds, every returned summary
takes its last_message from the last event's first part when that event's
role is "model" and from the second-to-last event's first part otherwise,
and the summaries are sorted by last_updated in descending order. -/
theorem C7_session_history_rule (svc : Bool) (sessions : List Session)
    (out : List SessionSummary)
    (h : getSessionHistoryForUser svc sessions = .ok out) :
    List.Sorted summaryGe out
    ∧ ∀ s ∈ out, ∃ sess, sess ∈ sessions
        ∧ s.id = sess.id
        ∧ s.last_updated = sess.last_update_time
        ∧ specLastMessage sess = some s.last_message := by
  unfold getSessionHistoryForUser at h
  by_cases hsvc : svc = false
  · rw [if_pos hsvc] at h
    exact Except.noConfusion h
  · rw [if_neg hsvc] at h
    cases hm : mapOpt mkSummary sessions with
    | none =>
      rw [hm] at h
      exact Except.noConfusion h
    | some summaries =>
      rw [hm] at h
      injection h with h
      subst h
      refine ⟨List.sorted_insertionSort summaryGe summaries, ?_⟩
      intro s hs
      have hs2 : s ∈ summaries :=
        (List.perm_insertionSort summaryGe summaries).mem_iff.mp hs
      obtain ⟨_, hmem⟩ := mapOpt_spec mkSummary sessions summaries hm
      obtain ⟨sess, hsess, hmk⟩ := hmem s hs2
      obtain ⟨hid, hlu, hspec⟩ := mkSummary_spec sess s hmk
      exact ⟨sess, hsess, hid, hlu, hspec⟩

/-- C7 witness: one session ending in a model event is summarised by that
event's first part. -/
theorem C7_session_history_rule_witness :
    getSessionHistoryForUser true
        [⟨"s1", [⟨"user", [⟨some "hi"⟩], false⟩, ⟨"model", [⟨some "hello"⟩], true⟩], 10⟩]
      = .ok [⟨"s1", "hello", 10⟩]
    ∧ (List.Sorted summaryGe [⟨"s1", "hello", 10⟩]
      ∧ ∀ s ∈ [(⟨"s1", "hello", 10⟩ : SessionSummary)],
          ∃ sess, sess ∈ [(⟨"s1", [⟨"user", [⟨some "hi"⟩], false⟩,
                ⟨"model", [⟨some "hello"⟩], true⟩], 10⟩ : Session)]
            ∧ s.id = sess.id
            ∧ s.last_updated = sess.last_update_time
            ∧ specLastMessage sess = some s.last_message) :=
  ⟨rfl, C7_session_history_rule true
    [⟨"s1", [⟨"user", [⟨some "hi"⟩], false⟩, ⟨"model", [⟨some "hello"⟩], true⟩], 10⟩]
    [⟨"s1", "hello", 10⟩] rfl⟩

/-- C5 counterexample: one COMPLETED document with amount 5 and no currency
field: the linear sum over the selection is 5, yet the tool answers
total_amount 0 with currency "N/A". -/
theorem C5_counterexample :
    specSumSel completedSel
        [("d1.pdf", { status := some "COMPLETED", total_amount_num := some 5 })] = 5
    ∧ getTotalAmountForCompletedInvoices
        (some [("d1.pdf", { status := some "COMPLETED", total_amount_num := some 5 })])
        = .ok (0, "N/A") := by
  exact ⟨rfl, rfl⟩

/-- C5 amended: get_total_amount_for_completed_invoices answers the linear
amount sum over the COMPLETED selection with the unique distinct truthy
currency when exactly one occurs and "MIXED" when several occur, but the
constant pair (0, "N/A") when no selected document carries a truthy
currency; the distinct-currency list is duplicate-free and holds exactly
the currencies occurring in the selection. -/
theorem C5_total_completed_amended (docs : List (String × InvoiceDoc)) :
    getTotalAmountForCompletedInvoices (some docs) = .ok (specCompletedTotalsResult docs)
    ∧ (specCurrenciesSel completedSel docs).Nodup
    ∧ ∀ c, c ∈ specCurrenciesSel completedSel docs
        ↔ ∃ p, p ∈ docs.filter completedSel ∧ curOf p.2 = some c := by
  refine ⟨getTotalCompleted_eq docs, ?_, fun c => ?_⟩
  · unfold specCurrenciesSel
    exact nodup_curFold _ _ List.nodup_nil
  · unfold specCurrenciesSel
    simpa using mem_curFold (docs.filter completedSel) [] c

/-- C3 counterexample: find_overdue_invoices selects the COMPLETED past-due
document, and its selection is not determined by any single document
field: for every field there are two entries agreeing on that field with
different selection results. -/
theorem C3_counterexample :
    findOverdueInvoices 100
        (some [("a.pdf", { status := some "COMPLETED", due_date_dt := some 50 })])
      = .ok [{ status := some "COMPLETED", due_date_dt := some 50 }]
    ∧ ¬ singleFieldSel (overdueSel 100) := by
  refine ⟨rfl, ?_⟩
  rintro ⟨k, hk⟩
  cases k <;>
    first
      | exact absurd
          (hk ("x", { status := some "COMPLETED", due_date_dt := some 50 })
              ("x", { status := some "COMPLETED", due_date_dt := some 200 }) (by decide))
          (by decide)
      | exact absurd
          (hk ("x", { status := some "COMPLETED", due_date_dt := some 50 })
              ("x", { status := some "UPLOADED", due_date_dt := some 50 }) (by decide))
          (by decide)

/-- C3 amended: nine of the ten tools select documents by comparing exactly
one field against their argument (equality, a range bound, or substring
containment for the filename search) or compute linear sums over such
selections (get_total_amount_for_completed_invoices returns the constant
0 in its no-currency case, and get_top_vendors_by_spending one linear sum
per vendor of the COMPLETED selection); find_overdue_invoices instead
selects by comparing two fields, status equality and a due-date upper
bound. -/
theorem C3_tool_query_shapes (docs : List (String × InvoiceDoc))
    (s v num kw : String) (a : Int) (today : Nat) (limit : Nat) :
    (findInvoicesByStatus (some docs) s = .ok ((docs.filter (statusSel s)).map Prod.snd)
      ∧ singleFieldSel (statusSel s))
    ∧ (findInvoicesByVendor (some docs) v = .ok ((docs.filter (vendorSel v)).map Prod.snd)
      ∧ singleFieldSel (vendorSel v))
    ∧ (findInvoiceByNumber (some docs) num
        = .ok (((docs.filter (numberSel num)).map Prod.snd).head?)
      ∧ singleFieldSel (numberSel num))
    ∧ countInvoicesByStatus (some docs) s
        = .ok (upperS s, ((docs.filter (statusSel s)).map (fun _ => (1 : Nat))).sum)
    ∧ (findInvoicesAboveAmount (some docs) a
        = .ok ((docs.filter (amountSel a)).map Prod.snd)
      ∧ singleFieldSel (amountSel a))
    ∧ (searchInvoicesByFilename (some docs) kw
        = .ok ((docs.filter (containsSel kw)).map Prod.snd)
      ∧ singleFieldSel (containsSel kw))
    ∧ (findOverdueInvoices today (some docs)
        = .ok ((docs.filter (overdueSel today)).map Prod.snd)
      ∧ dependsOnTwoFields .status .due_date_dt (overdueSel today))
    ∧ getTotalAmountForCompletedInvoices (some docs) = .ok (specCompletedTotalsResult docs)
    ∧ getTotalAmountForVendor (some docs) v = .ok (specVendorResult docs v)
    ∧ (∀ out, getTopVendorsBySpending (some docs) limit = .ok out →
        out.length ≤ limit ∧ ∀ p ∈ out, p.2 = vendorSum docs p.1) := by
  refine ⟨⟨findInvoicesByStatus_eq docs s, singleFieldSel_status s⟩,
    ⟨findInvoicesByVendor_eq docs v, singleFieldSel_vendor v⟩,
    ⟨findInvoiceByNumber_eq docs num, singleFieldSel_number num⟩,
    countInvoicesByStatus_eq docs s,
    ⟨findInvoicesAboveAmount_eq docs a, singleFieldSel_amount a⟩,
    ⟨searchInvoicesByFilename_eq docs kw, singleFieldSel_contains kw⟩,
    ⟨findOverdueInvoices_eq docs today, overdue_depends_on_two_fields today⟩,
    getTotalCompleted_eq docs,
    getTotalVendor_eq docs v,
    fun out hout => topVendors_spec docs limit out hout⟩

/-- C4: the chat agent is the statically built module constant registering
exactly the ten named tool functions, without duplicates, and the agent
handed to the runner by the chat endpoint is that constant whatever the
request and database state are. -/
theorem C4_agent_fixed_tools :
    chat_agent.tools
      = [.find_invoices_by_status, .find_invoices_by_vendor, .find_invoice_by_number,
         .get_total_amount_for_completed_invoices, .count_invoices_by_status,
         .get_total_amount_for_vendor, .find_invoices_above_amount,
         .find_overdue_invoices, .search_invoices_by_filename,
         .get_top_vendors_by_spending]
    ∧ chat_agent.tools.length = 10
    ∧ chat_agent.tools.Nodup
    ∧ ∀ (req : ChatRequest) (st : WorldState), agentForRequest req st = chat_agent :=
  ⟨rfl, rfl, by decide, fun _ _ => rfl⟩

end InvoiceAI
